import Mathlib

/-!
Shallow embedding of the continuous audio ring-buffer capture engine of the
D.Y.H.T repository, together with proofs and refutations of its specified
properties.

The embedded code lives in `src/hooks/useAudioBuffer.ts` (ring buffer,
remembering recorder, trigger extraction, resize, fill queries, demo-mode
fallback) and in the main component file (sound-trigger threshold/cooldown
gate).  Timestamps are `Date.now()` milliseconds, modelled as `Int`; audio
payloads are opaque, modelled by the `Blob` inductive; the fractional
arithmetic of the fill queries is modelled over `ℚ`.
-/

namespace DYHT

/-- An opaque audio payload: either a chunk delivered by the microphone
`MediaRecorder` (identified by an id) or a synthetic demo-mode chunk
(identified by the `Date.now()` instant at which the demo interval fired). -/
inductive Blob where
  | mic (id : Nat)
  | synth (t : Int)
  deriving DecidableEq, Repr

/-- One entry of `bufferRef.current`: `{ blob, timestamp }` with
`timestamp = Date.now()` in milliseconds. -/
structure Chunk where
  blob : Blob
  timestamp : Int
  deriving DecidableEq, Repr

/-- The mutable state of the hook: the fields of `AudioBufferState` that the
engine reads or writes, plus the authoritative chunk array `bufferRef.current`
(field `buffer` here).  `currentBuffer` mirrors the UI projection
`state.currentBuffer`. -/
structure BufferState where
  isBuffering : Bool
  bufferSize : Int
  buffer : List Chunk
  currentBuffer : List Blob
  bufferStartTime : Int
  isTriggered : Bool
  triggerTime : Int
  isRemembering : Bool
  rememberingStartTime : Int
  recordedChunks : List Blob
  deriving DecidableEq, Repr

/-- The initial hook state (`useState` initialiser with default
`bufferSize = 30`). -/
def initialState : BufferState :=
  { isBuffering := false
    bufferSize := 30
    buffer := []
    currentBuffer := []
    bufferStartTime := 0
    isTriggered := false
    triggerTime := 0
    isRemembering := false
    rememberingStartTime := 0
    recordedChunks := [] }

/-- One ingestion step: the body of `mediaRecorder.ondataavailable` for a
non-empty data event (the demo-mode interval body is the same code with a
synthetic blob).  It pushes `{ blob, timestamp }` onto `bufferRef.current`,
appends the blob to `recordedChunks` when `isRemembering`, then evicts every
chunk with `timestamp ≤ now - bufferSize*1000` (the filter keeps
`chunk.timestamp > cutoffTime`), and refreshes `currentBuffer`. -/
def ingest (s : BufferState) (blob : Blob) (timestamp : Int) : BufferState :=
  let buf := s.buffer ++ [⟨blob, timestamp⟩]
  let recorded := if s.isRemembering then s.recordedChunks ++ [blob] else s.recordedChunks
  let cutoffTime := timestamp - s.bufferSize * 1000
  let buf := buf.filter (fun c => decide (cutoffTime < c.timestamp))
  { s with
      buffer := buf
      recordedChunks := recorded
      currentBuffer := buf.map (·.blob) }

/-- Ingest a list of `(blob, timestamp)` events in order. -/
def ingestMany (s : BufferState) : List (Blob × Int) → BufferState
  | [] => s
  | (b, t) :: rest => ingestMany (ingest s b t) rest

/-- Errors named by the specification for the recorder / extraction surface.
The source functions never throw; the embedding keeps the error type so that
the spec's failure claims can be stated and compared against the code. -/
inductive RecorderError where
  | AlreadyActive
  | NotActive
  | EmptyBuffer
  deriving DecidableEq, Repr

/-- Embedding of `triggerRecording`: computes `bufferStartTime = now - bufferSize*1000`,
filters the chunks with `bufferStartTime ≤ timestamp ≤ now` (both bounds
inclusive), concatenates their blobs into the artifact, and marks the state
triggered.  The promise always resolves — there is no rejection path in the
source, so every branch of the embedding is `.ok`. -/
def triggerRecording (s : BufferState) (now : Int) :
    Except RecorderError (List Blob × BufferState) :=
  let bufferStartTime := now - s.bufferSize * 1000
  let relevantChunks := s.buffer.filter
    (fun c => decide (bufferStartTime ≤ c.timestamp) && decide (c.timestamp ≤ now))
  .ok (relevantChunks.map (·.blob),
    { s with isTriggered := true, triggerTime := now })

/-- The window snapshot taken by `startRemembering`: the chunks with
`timestamp ≥ now - bufferSize*1000`, as blobs, in buffer order. -/
def windowSnapshot (s : BufferState) (now : Int) : List Blob :=
  (s.buffer.filter (fun c => decide (now - s.bufferSize * 1000 ≤ c.timestamp))).map (·.blob)

/-- Embedding of `startRemembering`: snapshots the current window into `recordedChunks`,
sets `isRemembering`, records `rememberingStartTime`, and returns the
snapshot.  The source performs no state check — it succeeds from any state,
so every branch of the embedding is `.ok`. -/
def startRemembering (s : BufferState) (now : Int) :
    Except RecorderError (List Blob × BufferState) :=
  let bufferStartTime := now - s.bufferSize * 1000
  let bufferChunks := s.buffer.filter (fun c => decide (bufferStartTime ≤ c.timestamp))
  .ok (bufferChunks.map (·.blob),
    { s with
        isRemembering := true
        isTriggered := true
        triggerTime := now
        rememberingStartTime := bufferStartTime
        recordedChunks := bufferChunks.map (·.blob) })

/-- Embedding of `stopRemembering`: concatenates `recordedChunks` into the final artifact,
clears them and leaves the remembering state.  The source performs no state
check — it succeeds from any state, so the embedding is always `.ok`. -/
def stopRemembering (s : BufferState) :
    Except RecorderError (List Blob × BufferState) :=
  .ok (s.recordedChunks,
    { s with isRemembering := false, recordedChunks := [] })

/-- Embedding of `updateBufferSize`: clamps the requested size to `[30, 3000]` via
`Math.max(30, Math.min(3000, newSize))`, stores it, and immediately evicts
every chunk with `timestamp ≤ now - clampedSize*1000` (the filter keeps
`chunk.timestamp > cutoffTime`).  `currentBuffer` is not refreshed here,
exactly as in the source. -/
def updateBufferSize (s : BufferState) (newSize : Int) (now : Int) : BufferState :=
  let clampedSize := max 30 (min 3000 newSize)
  let cutoffTime := now - clampedSize * 1000
  { s with
      bufferSize := clampedSize
      buffer := s.buffer.filter (fun c => decide (cutoffTime < c.timestamp)) }

/-- Embedding of `getBufferDuration`: `0` for an empty buffer, otherwise
`(newest.timestamp - oldest.timestamp) / 1000` seconds, where oldest/newest
are the first and last array entries. -/
def getBufferDuration (s : BufferState) : ℚ :=
  if s.buffer = [] then 0
  else (((s.buffer.getLastD ⟨.mic 0, 0⟩).timestamp
          - (s.buffer.headD ⟨.mic 0, 0⟩).timestamp : Int) : ℚ) / 1000

/-- Embedding of `getBufferFill`: `min(100, duration / bufferSize * 100)`, a percentage. -/
def getBufferFill (s : BufferState) : ℚ :=
  min 100 (getBufferDuration s / (s.bufferSize : ℚ) * 100)

/-- The capture-acquisition failures distinguished by `startBuffering`'s
catch block (`error.name` dispatch), plus the catch-all arm. -/
inductive CaptureError where
  | NotAllowedError
  | NotFoundError
  | NotReadableError
  | other
  deriving DecidableEq, Repr

/-- Which chunk source ends up driving ingestion after `startBuffering`. -/
inductive CaptureMode where
  | mic
  | demo
  deriving DecidableEq, Repr

/-- Embedding of `startBuffering`: on successful device acquisition it wires the
microphone `MediaRecorder`; on any acquisition error the catch block logs and
falls back to `startDemoMode`.  Both paths set `isBuffering := true` and
`bufferStartTime := now`. -/
def startBuffering (acquisition : Except CaptureError Unit) (s : BufferState)
    (now : Int) : CaptureMode × BufferState :=
  match acquisition with
  | .ok _ => (.mic, { s with isBuffering := true, bufferStartTime := now })
  | .error _ => (.demo, { s with isBuffering := true, bufferStartTime := now })

/-- One tick of the demo-mode interval: generates a synthetic blob stamped
with the current instant and runs the same push/record/evict body as the
microphone `ondataavailable` handler. -/
def demoTick (s : BufferState) (now : Int) : BufferState :=
  ingest s (.synth now) now

/-- The sound-trigger state of the main component:
`{ isActive, threshold, lastTrigger, cooldown }` with `threshold` a 0–100
volume percentage and `cooldown` in milliseconds. -/
structure SoundDetection where
  isActive : Bool
  threshold : ℚ
  lastTrigger : Int
  cooldown : Int
  deriving DecidableEq, Repr

/-- The initial sound-detection state: threshold 50, no prior trigger,
2000 ms cooldown. -/
def initialSoundDetection : SoundDetection :=
  { isActive := false, threshold := 50, lastTrigger := 0, cooldown := 2000 }

/-- One trigger evaluation: the gate of `detectSound` —
`volumePercent > threshold && now - lastTrigger > cooldown` — which, when it
passes, records `lastTrigger := now` and fires the trigger. -/
def evaluate (sd : SoundDetection) (volumePercent : ℚ) (now : Int) :
    Bool × SoundDetection :=
  if sd.threshold < volumePercent ∧ sd.cooldown < now - sd.lastTrigger then
    (true, { sd with lastTrigger := now })
  else
    (false, sd)

/-- Run a sequence of `(volumePercent, now)` evaluations, collecting the
fired flags in order. -/
def runEvals (sd : SoundDetection) : List (ℚ × Int) → List Bool × SoundDetection
  | [] => ([], sd)
  | (lvl, t) :: rest =>
    let step := evaluate sd lvl t
    let tail := runEvals step.2 rest
    (step.1 :: tail.1, tail.2)

/-! ### Helper lemmas -/

theorem evaluate_fire (sd : SoundDetection) (lvl : ℚ) (now : Int)
    (h1 : sd.threshold < lvl) (h2 : sd.cooldown < now - sd.lastTrigger) :
    evaluate sd lvl now = (true, { sd with lastTrigger := now }) := by
  simp [evaluate, h1, h2]

theorem evaluate_hold (sd : SoundDetection) (lvl : ℚ) (now : Int)
    (h : ¬(sd.threshold < lvl ∧ sd.cooldown < now - sd.lastTrigger)) :
    evaluate sd lvl now = (false, sd) := by
  simp only [evaluate, if_neg h]

theorem ingest_isRemembering (s : BufferState) (b : Blob) (t : Int) :
    (ingest s b t).isRemembering = s.isRemembering := rfl

theorem ingest_recordedChunks_of_remembering (s : BufferState) (b : Blob) (t : Int)
    (h : s.isRemembering = true) :
    (ingest s b t).recordedChunks = s.recordedChunks ++ [b] := by
  simp [ingest, h]

theorem ingestMany_recorded (items : List (Blob × Int)) :
    ∀ s : BufferState, s.isRemembering = true →
      (ingestMany s items).isRemembering = true ∧
      (ingestMany s items).recordedChunks = s.recordedChunks ++ items.map Prod.fst := by
  induction items with
  | nil => exact fun s h => ⟨h, by simp [ingestMany]⟩
  | cons it rest ih =>
    intro s h
    obtain ⟨b, t⟩ := it
    have hrem : (ingest s b t).isRemembering = true := by
      rw [ingest_isRemembering]; exact h
    obtain ⟨h1, h2⟩ := ih (ingest s b t) hrem
    refine ⟨by simpa [ingestMany] using h1, ?_⟩
    simp only [ingestMany]
    rw [h2, ingest_recordedChunks_of_remembering s b t h]
    simp

/-- Claim C1: after every ingestion (microphone or demo mode), every chunk
remaining in the buffer is at most `bufferSize` seconds old relative to the
ingestion timestamp, and the window size is unchanged: eviction happens as
part of the ingestion itself, from any prior buffer state. -/
theorem ingest_window_invariant (s : BufferState) (b : Blob) (t : Int) :
    (∀ c ∈ (ingest s b t).buffer, t - c.timestamp ≤ s.bufferSize * 1000) ∧
    (ingest s b t).bufferSize = s.bufferSize ∧
    (∀ c ∈ (demoTick s t).buffer, t - c.timestamp ≤ s.bufferSize * 1000) := by
  refine ⟨?_, rfl, ?_⟩ <;>
  · intro c hc
    simp only [demoTick, ingest, List.mem_filter, decide_eq_true_eq] at hc
    omega

theorem ingest_window_invariant_witness :
    (⟨.mic 0, 0⟩ : Chunk) ∈ (ingest initialState (.mic 0) 0).buffer ∧
    (0 : Int) - (⟨(Blob.mic 0), 0⟩ : Chunk).timestamp ≤ initialState.bufferSize * 1000 :=
  ⟨by decide,
   (ingest_window_invariant initialState (.mic 0) 0).1 ⟨.mic 0, 0⟩ (by decide)⟩

/-- A concrete buffer holding a single chunk sitting exactly on the window's
lower boundary `T - bufferSize*1000` for `T = 0`. -/
def boundaryState : BufferState :=
  { initialState with isBuffering := true, buffer := [⟨.mic 7, -30000⟩] }

/-- Claim C10: ingestion keeps exactly the chunks with timestamp strictly
greater than `T - bufferSize*1000` — a chunk stamped exactly on the boundary
is evicted — while `triggerRecording`'s range filter is inclusive at both
ends, so a chunk stamped exactly on the boundary is part of the extracted
artifact. -/
theorem eviction_strict_extraction_inclusive (s : BufferState) (b : Blob) (T : Int)
    (hW : 0 ≤ s.bufferSize) :
    ((ingest s b T).buffer
      = (s.buffer ++ [(⟨b, T⟩ : Chunk)]).filter
          (fun c => decide (T - s.bufferSize * 1000 < c.timestamp))) ∧
    (∀ c : Chunk, c.timestamp = T - s.bufferSize * 1000 →
      c ∉ (ingest s b T).buffer) ∧
    (∀ c ∈ s.buffer, c.timestamp = T - s.bufferSize * 1000 →
      ∃ s', triggerRecording s T
          = .ok ((s.buffer.filter (fun c => decide (T - s.bufferSize * 1000 ≤ c.timestamp)
                  && decide (c.timestamp ≤ T))).map (·.blob), s') ∧
        c.blob ∈ ((s.buffer.filter (fun c => decide (T - s.bufferSize * 1000 ≤ c.timestamp)
                  && decide (c.timestamp ≤ T))).map (·.blob))) := by
  refine ⟨rfl, ?_, ?_⟩
  · intro c hc hmem
    simp only [ingest, List.mem_filter, decide_eq_true_eq] at hmem
    omega
  · intro c hc hts
    refine ⟨_, rfl, ?_⟩
    have hmemf : c ∈ s.buffer.filter
        (fun c => decide (T - s.bufferSize * 1000 ≤ c.timestamp)
          && decide (c.timestamp ≤ T)) := by
      simp only [List.mem_filter, Bool.and_eq_true, decide_eq_true_eq]
      exact ⟨hc, by omega, by omega⟩
    exact List.mem_map_of_mem _ hmemf

theorem eviction_strict_extraction_inclusive_witness :
    (0 : Int) ≤ boundaryState.bufferSize ∧
    ((⟨.mic 7, -30000⟩ : Chunk) ∉ (ingest boundaryState (.mic 0) 0).buffer) ∧
    (∃ s', triggerRecording boundaryState 0
        = .ok ((boundaryState.buffer.filter
            (fun c => decide ((0 : Int) - boundaryState.bufferSize * 1000 ≤ c.timestamp)
              && decide (c.timestamp ≤ (0 : Int)))).map (·.blob), s') ∧
      (⟨(Blob.mic 7), -30000⟩ : Chunk).blob ∈ ((boundaryState.buffer.filter
            (fun c => decide ((0 : Int) - boundaryState.bufferSize * 1000 ≤ c.timestamp)
              && decide (c.timestamp ≤ (0 : Int)))).map (·.blob))) :=
  ⟨by decide,
   (eviction_strict_extraction_inclusive boundaryState (.mic 0) 0 (by decide)).2.1
     ⟨.mic 7, -30000⟩ (by decide),
   (eviction_strict_extraction_inclusive boundaryState (.mic 0) 0 (by decide)).2.2
     ⟨.mic 7, -30000⟩ (by decide) (by decide)⟩

/-- Claim C3: an evaluation fires exactly when the volume exceeds the
threshold and the cooldown has elapsed since the last firing, and
`lastTrigger` is updated to `now` exactly when it fires.  Consequently two
qualifying evaluations less than `cooldown` ms apart produce exactly one
firing, and with threshold 50 / cooldown 2000 the qualifying evaluations at
the session instants `t0`, `t0+1000` and `t0+2001` fire at the first and
third only. -/
theorem trigger_gate_correct :
    (∀ (sd : SoundDetection) (lvl : ℚ) (now : Int),
      ((evaluate sd lvl now).1 = true ↔
        sd.threshold < lvl ∧ sd.cooldown < now - sd.lastTrigger) ∧
      (evaluate sd lvl now).2.lastTrigger
        = (if (evaluate sd lvl now).1 then now else sd.lastTrigger)) ∧
    (∀ (sd : SoundDetection) (l1 l2 : ℚ) (t1 t2 : Int),
      sd.threshold < l1 → sd.threshold < l2 →
      sd.cooldown < t1 - sd.lastTrigger → t2 - t1 < sd.cooldown →
      ((evaluate sd l1 t1).1, (evaluate (evaluate sd l1 t1).2 l2 t2).1)
        = (true, false)) ∧
    (∀ t0 : Int, 2000 < t0 →
      (runEvals { initialSoundDetection with isActive := true }
        [(80, t0), (90, t0 + 1000), (90, t0 + 2001)]).1 = [true, false, true]) := by
  refine ⟨?_, ?_, ?_⟩
  · intro sd lvl now
    constructor
    · unfold evaluate
      split
      · next h => simpa using h
      · next h => simpa using h
    · unfold evaluate
      split
      · simp
      · simp
  · intro sd l1 l2 t1 t2 hq1 hq2 hfirst hsep
    rw [evaluate_fire sd l1 t1 hq1 hfirst,
        evaluate_hold { sd with lastTrigger := t1 } l2 t2 (by
          rintro ⟨-, h⟩
          simp only at h
          omega)]
  · intro t0 ht0
    have e1 := evaluate_fire { initialSoundDetection with isActive := true } 80 t0
      (show (50 : ℚ) < 80 by norm_num) (show (2000 : Int) < t0 - 0 by omega)
    have e2 := evaluate_hold
      { initialSoundDetection with isActive := true, lastTrigger := t0 } 90 (t0 + 1000)
      (by
        rintro ⟨-, h⟩
        have h' : (2000 : Int) < t0 + 1000 - t0 := h
        omega)
    have e3 := evaluate_fire
      { initialSoundDetection with isActive := true, lastTrigger := t0 } 90 (t0 + 2001)
      (show (50 : ℚ) < 90 by norm_num)
      (show (2000 : Int) < t0 + 2001 - t0 by omega)
    simp only [runEvals, e1, e2, e3]

theorem trigger_gate_correct_witness :
    ((50 : ℚ) < 80 ∧ (2000 : Int) < 1000000 - 0 ∧
      (1001000 : Int) - 1000000 < 2000) ∧
    ((evaluate initialSoundDetection 80 1000000).1,
      (evaluate (evaluate initialSoundDetection 80 1000000).2 90 1001000).1)
        = (true, false) ∧
    (runEvals { initialSoundDetection with isActive := true }
      [(80, 1000000), (90, 1000000 + 1000), (90, 1000000 + 2001)]).1
        = [true, false, true] :=
  ⟨⟨by norm_num, by norm_num, by norm_num⟩,
   trigger_gate_correct.2.1 initialSoundDetection 80 90 1000000 1001000
     (by norm_num [initialSoundDetection]) (by norm_num [initialSoundDetection])
     (by norm_num [initialSoundDetection]) (by norm_num [initialSoundDetection]),
   trigger_gate_correct.2.2 1000000 (by norm_num)⟩

/-- The state produced by a successful `startRemembering` at instant `t0`:
remembering is active and `recordedChunks` is seeded with the window
snapshot. -/
def rememberingStarted (s : BufferState) (t0 : Int) : BufferState :=
  { s with
      isRemembering := true
      isTriggered := true
      triggerTime := t0
      rememberingStartTime := t0 - s.bufferSize * 1000
      recordedChunks := windowSnapshot s t0 }

/-- A concrete ring buffer holding 10 chunks covering the last 10 seconds
before the instant `100000`. -/
def scenarioBStart : BufferState :=
  { initialState with
      isBuffering := true
      buffer := (List.range 10).map (fun k => ⟨.mic k, 91000 + 1000 * (k : Int)⟩) }

/-- The 5 chunks ingested while the Scenario B remembering session is
active. -/
def scenarioBItems : List (Blob × Int) :=
  (List.range 5).map (fun k => (Blob.mic (10 + k), 101000 + 1000 * (k : Int)))

/-- The Scenario B run: start remembering at `100000`, ingest the 5 chunks,
then stop. -/
def scenarioBRun : Except RecorderError (List Blob × BufferState) :=
  match startRemembering scenarioBStart 100000 with
  | .ok (_, s1) => stopRemembering (ingestMany s1 scenarioBItems)
  | .error e => .error e

/-- Claim C2: the artifact returned by `stopRemembering` is exactly the
window snapshot taken at `startRemembering` followed by every chunk ingested
while the session was active, in order, independent of ring-buffer eviction;
in Scenario B (10 buffered chunks spanning the last 10 s, 5 chunks ingested
during the session) the artifact is exactly the 15 blobs in timestamp
order. -/
theorem remembering_accumulation :
    (∀ (s : BufferState) (t0 : Int) (items : List (Blob × Int)),
      ∃ s1, startRemembering s t0 = .ok (windowSnapshot s t0, s1) ∧
        ∃ s2, stopRemembering (ingestMany s1 items)
            = .ok (windowSnapshot s t0 ++ items.map Prod.fst, s2) ∧
          s2.isRemembering = false) ∧
    (scenarioBRun.toOption.map Prod.fst
      = some ((List.range 15).map (fun k => Blob.mic k)) ∧
     ((List.range 15).map (fun k => Blob.mic k)).length = 15) := by
  constructor
  · intro s t0 items
    refine ⟨rememberingStarted s t0, rfl, ?_⟩
    obtain ⟨h1, h2⟩ := ingestMany_recorded items (rememberingStarted s t0) rfl
    refine ⟨{ ingestMany (rememberingStarted s t0) items with
        isRemembering := false, recordedChunks := [] }, ?_, rfl⟩
    simp only [stopRemembering]
    rw [h2]
    rfl
  · exact ⟨by decide, by decide⟩

/-- Scenario A input: one chunk per second for 45 seconds, starting at
instant 0, against the default 30 s window. -/
def scenarioAItems : List (Blob × Int) :=
  (List.range 45).map (fun k => (Blob.mic k, 1000 * (k : Int)))

/-- The buffer state after the 45th Scenario A ingestion. -/
def scenarioAState : BufferState :=
  ingestMany { initialState with isBuffering := true } scenarioAItems

theorem scenarioA_fill_eq : getBufferFill scenarioAState = 290 / 3 := by
  have hdur : getBufferDuration scenarioAState = 29 := by
    have h1 : scenarioAState.buffer.getLastD ⟨.mic 0, 0⟩ = ⟨.mic 44, 44000⟩ := by decide
    have h2 : scenarioAState.buffer.headD ⟨.mic 0, 0⟩ = ⟨.mic 15, 15000⟩ := by decide
    have h3 : ¬ scenarioAState.buffer = [] := by decide
    rw [getBufferDuration, if_neg h3, h1, h2]
    norm_num
  have hsize : scenarioAState.bufferSize = 30 := by decide
  rw [getBufferFill, hdur, hsize]
  rw [min_eq_right (by norm_num : (29 : ℚ) / (30 : Int) * 100 ≤ 100)]
  norm_num

/-- Claim C4 counterexample: after the 45th one-per-second ingestion with a
30 s window, exactly 30 chunks remain but `getBufferFill` is not 100 %: the
retained span `newest - oldest` is 29 s, so the fill is 290/3 % ≈ 96.7 %
(ratio 29/30, not 1.0). -/
theorem scenarioA_fill_not_full :
    scenarioAState.buffer.length = 30 ∧
    ¬ (scenarioAState.buffer.length = 30 ∧ getBufferFill scenarioAState = 100) := by
  refine ⟨by decide, ?_⟩
  rintro ⟨-, h⟩
  exact absurd (scenarioA_fill_eq.symm.trans h) (by norm_num)

/-- Claim C4 amended: after the 45th one-per-second ingestion the buffer
holds exactly the 30 chunks stamped 15000..44000 ms (the oldest 15 evicted),
and `getBufferFill` is 290/3 % — fill ratio 29/30, not 1.0, because the
span `newest - oldest` of 30 one-per-second chunks is 29 s. -/
theorem scenarioA_thirty_chunks_fill_29_30 :
    scenarioAState.buffer.map (·.timestamp)
      = (List.range 30).map (fun k => 15000 + 1000 * (k : Int)) ∧
    scenarioAState.buffer.length = 30 ∧
    getBufferFill scenarioAState = 290 / 3 := by
  refine ⟨by decide, by decide, scenarioA_fill_eq⟩

/-- Claim C5: `updateBufferSize` sets the window to the input clamped into
`[30, 3000]`, immediately evicts every chunk at or below the new cutoff
(in particular every chunk older than `now` minus the new window), never
reintroduces chunks, and — when the window grows and the buffer satisfies
the window invariant at `now` — evicts nothing. -/
theorem updateBufferSize_clamp_and_evict (s : BufferState) (n now : Int) :
    (updateBufferSize s n now).bufferSize = max 30 (min 3000 n) ∧
    (∀ c ∈ s.buffer, c.timestamp ≤ now - max 30 (min 3000 n) * 1000 →
      c ∉ (updateBufferSize s n now).buffer) ∧
    (∀ c ∈ (updateBufferSize s n now).buffer, c ∈ s.buffer) ∧
    ((∀ c ∈ s.buffer, now - s.bufferSize * 1000 < c.timestamp) →
      s.bufferSize ≤ max 30 (min 3000 n) →
      (updateBufferSize s n now).buffer = s.buffer) := by
  refine ⟨rfl, ?_, ?_, ?_⟩
  · intro c _ hts hmem
    simp only [updateBufferSize, List.mem_filter, decide_eq_true_eq] at hmem
    omega
  · intro c hc
    exact List.mem_of_mem_filter hc
  · intro hinv hgrow
    simp only [updateBufferSize]
    rw [List.filter_eq_self]
    intro c hc
    simp only [decide_eq_true_eq]
    have := hinv c hc
    omega

/-- A buffer with window 120 s holding one stale and one fresh chunk,
viewed at instant `0`. -/
def resizeState : BufferState :=
  { initialState with
      bufferSize := 120
      buffer := [⟨.mic 0, -100000⟩, ⟨.mic 1, -100⟩] }

/-- A buffer with window 120 s holding only a fresh chunk, viewed at
instant `0`. -/
def growState : BufferState :=
  { initialState with bufferSize := 120, buffer := [⟨.mic 1, -100⟩] }

theorem updateBufferSize_clamp_and_evict_witness :
    ((updateBufferSize resizeState 10 0).bufferSize = max 30 (min 3000 10) ∧
      (⟨(Blob.mic 0), -100000⟩ : Chunk) ∈ resizeState.buffer ∧
      (⟨(Blob.mic 0), -100000⟩ : Chunk).timestamp ≤ 0 - max 30 (min 3000 (10 : Int)) * 1000 ∧
      (⟨(Blob.mic 0), -100000⟩ : Chunk) ∉ (updateBufferSize resizeState 10 0).buffer) ∧
    (updateBufferSize growState 500 0).buffer = growState.buffer :=
  ⟨⟨(updateBufferSize_clamp_and_evict resizeState 10 0).1,
    by decide, by decide,
    (updateBufferSize_clamp_and_evict resizeState 10 0).2.1 _ (by decide) (by decide)⟩,
   (updateBufferSize_clamp_and_evict growState 500 0).2.2.2
     (by decide) (by decide)⟩

/-- A buffer with window 300 s holding two chunks spanning 5 s, viewed at
instant `100000`. -/
def shrinkState : BufferState :=
  { initialState with
      bufferSize := 300
      buffer := [⟨.mic 0, 95000⟩, ⟨.mic 1, 100000⟩] }

/-- The state `shrinkState` after shrinking the window to 30 s at instant `100000`:
both chunks survive (they are younger than 30 s), only the denominator of
the fill ratio changes. -/
def shrunkState : BufferState :=
  updateBufferSize shrinkState 30 100000

theorem shrinkState_fill : getBufferFill shrinkState = 5 / 3 := by
  have hdur : getBufferDuration shrinkState = 5 := by
    have h1 : shrinkState.buffer.getLastD ⟨.mic 0, 0⟩ = ⟨.mic 1, 100000⟩ := by decide
    have h2 : shrinkState.buffer.headD ⟨.mic 0, 0⟩ = ⟨.mic 0, 95000⟩ := by decide
    have h3 : ¬ shrinkState.buffer = [] := by decide
    rw [getBufferDuration, if_neg h3, h1, h2]
    norm_num
  have hsize : shrinkState.bufferSize = 300 := by decide
  rw [getBufferFill, hdur, hsize]
  rw [min_eq_right (by norm_num : (5 : ℚ) / (300 : Int) * 100 ≤ 100)]
  norm_num

theorem shrunkState_fill : getBufferFill shrunkState = 50 / 3 := by
  have hdur : getBufferDuration shrunkState = 5 := by
    have h1 : shrunkState.buffer.getLastD ⟨.mic 0, 0⟩ = ⟨.mic 1, 100000⟩ := by decide
    have h2 : shrunkState.buffer.headD ⟨.mic 0, 0⟩ = ⟨.mic 0, 95000⟩ := by decide
    have h3 : ¬ shrunkState.buffer = [] := by decide
    rw [getBufferDuration, if_neg h3, h1, h2]
    norm_num
  have hsize : shrunkState.bufferSize = 30 := by decide
  rw [getBufferFill, hdur, hsize]
  rw [min_eq_right (by norm_num : (5 : ℚ) / (30 : Int) * 100 ≤ 100)]
  norm_num

/-- Claim C6 counterexample: shrinking the window strictly from 300 s to
30 s on a buffer spanning 5 s increases `getBufferFill` from 5/3 % to
50/3 %: both chunks survive eviction and only the denominator shrinks. -/
theorem shrink_can_increase_fill :
    shrinkState.bufferSize = 300 ∧
    shrunkState.bufferSize = 30 ∧
    getBufferFill shrinkState = 5 / 3 ∧
    getBufferFill shrunkState = 50 / 3 ∧
    ¬ (getBufferFill shrunkState ≤ getBufferFill shrinkState) := by
  refine ⟨rfl, by decide, shrinkState_fill, shrunkState_fill, ?_⟩
  rw [shrinkState_fill, shrunkState_fill]
  norm_num

theorem headD_mem {l : List Chunk} (h : ¬ l = []) (d : Chunk) : l.headD d ∈ l := by
  cases l with
  | nil => exact absurd rfl h
  | cons a t => simp

theorem getLastD_mem_or_eq (l : List Chunk) (d : Chunk) :
    l.getLastD d ∈ l ∨ l.getLastD d = d := by
  induction l generalizing d with
  | nil => exact Or.inr rfl
  | cons a t ih =>
    rw [List.getLastD_cons]
    rcases ih a with h | h
    · exact Or.inl (List.mem_cons_of_mem a h)
    · exact Or.inl (by rw [h]; exact List.mem_cons_self a t)

theorem getLastD_mem {l : List Chunk} (h : ¬ l = []) (d : Chunk) : l.getLastD d ∈ l := by
  cases l with
  | nil => exact absurd rfl h
  | cons a t =>
    rw [List.getLastD_cons]
    rcases getLastD_mem_or_eq t a with h' | h'
    · exact List.mem_cons_of_mem a h'
    · rw [h']; exact List.mem_cons_self a t

theorem head_timestamp_le {l : List Chunk}
    (hl : l.Pairwise (fun a b => a.timestamp ≤ b.timestamp)) {x : Chunk}
    (hx : x ∈ l) (d : Chunk) : (l.headD d).timestamp ≤ x.timestamp := by
  cases l with
  | nil => cases hx
  | cons a t =>
    rcases List.mem_cons.mp hx with rfl | hx
    · simp
    · exact (List.pairwise_cons.mp hl).1 x hx

theorem timestamp_le_getLastD {l : List Chunk}
    (hl : l.Pairwise (fun a b => a.timestamp ≤ b.timestamp)) {x : Chunk}
    (hx : x ∈ l) (d : Chunk) : x.timestamp ≤ (l.getLastD d).timestamp := by
  induction l generalizing d with
  | nil => cases hx
  | cons a t ih =>
    have hl' := (List.pairwise_cons.mp hl).2
    rw [List.getLastD_cons]
    rcases List.mem_cons.mp hx with rfl | hx2
    · rcases getLastD_mem_or_eq t x with h | h
      · exact (List.pairwise_cons.mp hl).1 _ h
      · rw [h]
    · exact ih hl' hx2 a

theorem getBufferDuration_nonneg (s : BufferState)
    (hsorted : s.buffer.Pairwise (fun a b => a.timestamp ≤ b.timestamp)) :
    0 ≤ getBufferDuration s := by
  rw [getBufferDuration]
  split
  · exact le_refl 0
  · next h =>
    have hmem : s.buffer.headD ⟨.mic 0, 0⟩ ∈ s.buffer := headD_mem h _
    have hle := timestamp_le_getLastD hsorted hmem ⟨.mic 0, 0⟩
    have hnum : (0 : ℚ) ≤ (((s.buffer.getLastD ⟨.mic 0, 0⟩).timestamp
        - (s.buffer.headD ⟨.mic 0, 0⟩).timestamp : Int) : ℚ) := by
      exact_mod_cast Int.sub_nonneg.mpr hle
    positivity

/-- Claim C6 amended: strictly shrinking the window (with the clamped new
size below the old one) never increases the retained span
`getBufferDuration` nor the chunk count — but it can increase
`getBufferFill`, because the fill divides the span by the smaller new
window (see the counterexample). -/
theorem shrink_duration_monotone (s : BufferState) (n now : Int)
    (hsorted : s.buffer.Pairwise (fun a b => a.timestamp ≤ b.timestamp))
    (_hshrink : max 30 (min 3000 n) < s.bufferSize) :
    getBufferDuration (updateBufferSize s n now) ≤ getBufferDuration s ∧
    (updateBufferSize s n now).buffer.length ≤ s.buffer.length := by
  constructor
  · have hsub : ∀ c ∈ (updateBufferSize s n now).buffer, c ∈ s.buffer :=
      fun c hc => List.mem_of_mem_filter hc
    rw [getBufferDuration, getBufferDuration]
    split
    · next =>
      show (0 : ℚ) ≤ if s.buffer = [] then 0
        else (((s.buffer.getLastD ⟨.mic 0, 0⟩).timestamp
          - (s.buffer.headD ⟨.mic 0, 0⟩).timestamp : Int) : ℚ) / 1000
      exact getBufferDuration_nonneg s hsorted
    · next hne =>
      have hlne : ¬ s.buffer = [] := by
        intro h0
        apply hne
        simp only [updateBufferSize, h0, List.filter_nil]
      rw [if_neg hlne]
      have hheadmem : (updateBufferSize s n now).buffer.headD ⟨.mic 0, 0⟩ ∈ s.buffer :=
        hsub _ (headD_mem hne _)
      have hlastmem : (updateBufferSize s n now).buffer.getLastD ⟨.mic 0, 0⟩ ∈ s.buffer :=
        hsub _ (getLastD_mem hne _)
      have h1 := head_timestamp_le hsorted hheadmem (⟨.mic 0, 0⟩ : Chunk)
      have h2 := timestamp_le_getLastD hsorted hlastmem (⟨.mic 0, 0⟩ : Chunk)
      have hnum : (((updateBufferSize s n now).buffer.getLastD ⟨.mic 0, 0⟩).timestamp
            - ((updateBufferSize s n now).buffer.headD ⟨.mic 0, 0⟩).timestamp : Int)
          ≤ ((s.buffer.getLastD ⟨.mic 0, 0⟩).timestamp
            - (s.buffer.headD ⟨.mic 0, 0⟩).timestamp : Int) := by omega
      have hq : ((((updateBufferSize s n now).buffer.getLastD ⟨.mic 0, 0⟩).timestamp
            - ((updateBufferSize s n now).buffer.headD ⟨.mic 0, 0⟩).timestamp : Int) : ℚ)
          ≤ (((s.buffer.getLastD ⟨.mic 0, 0⟩).timestamp
            - (s.buffer.headD ⟨.mic 0, 0⟩).timestamp : Int) : ℚ) := by
        exact_mod_cast hnum
      linarith
  · simp only [updateBufferSize]
    exact List.length_filter_le _ _

theorem shrink_duration_monotone_witness :
    getBufferDuration shrunkState ≤ getBufferDuration shrinkState ∧
    shrunkState.buffer.length ≤ shrinkState.buffer.length :=
  shrink_duration_monotone shrinkState 30 100000 (by decide) (by decide)

/-- A state in which a remembering session is already active. -/
def activeRememberingState : BufferState :=
  { initialState with isRemembering := true, recordedChunks := [.mic 0] }

/-- Claim C7 counterexample: `startRemembering` on an already-Remembering
state does not fail with `AlreadyActive` — it succeeds — and
`stopRemembering` on an Idle state does not fail with `NotActive` — it
succeeds as well.  The source performs no state check in either function. -/
theorem recorder_misuse_not_surfaced :
    activeRememberingState.isRemembering = true ∧
    (startRemembering activeRememberingState 5).isOk = true ∧
    ¬ startRemembering activeRememberingState 5
        = .error RecorderError.AlreadyActive ∧
    initialState.isRemembering = false ∧
    (stopRemembering initialState).isOk = true ∧
    ¬ stopRemembering initialState = .error RecorderError.NotActive := by
  refine ⟨rfl, rfl, fun h => ?_, rfl, rfl, fun h => ?_⟩
  · exact Except.noConfusion h
  · exact Except.noConfusion h

/-- Claim C7 amended: neither misuse is surfaced.  `startRemembering` on an
already-Remembering state silently succeeds, restarting the session with
`recordedChunks` reseeded to the current window snapshot (the earlier
session's accumulation is discarded); `stopRemembering` on an Idle state
silently succeeds, returning the current `recordedChunks` (empty for a
fresh Idle state) instead of a `NotActive` error. -/
theorem recorder_misuse_silently_succeeds (s : BufferState) (t : Int) :
    (s.isRemembering = true →
      startRemembering s t = .ok (windowSnapshot s t, rememberingStarted s t) ∧
      (rememberingStarted s t).isRemembering = true ∧
      (rememberingStarted s t).recordedChunks = windowSnapshot s t) ∧
    (s.isRemembering = false →
      stopRemembering s
        = .ok (s.recordedChunks,
            { s with isRemembering := false, recordedChunks := [] })) :=
  ⟨fun _ => ⟨rfl, rfl, rfl⟩, fun _ => rfl⟩

theorem recorder_misuse_silently_succeeds_witness :
    startRemembering activeRememberingState 5
      = .ok (windowSnapshot activeRememberingState 5,
          rememberingStarted activeRememberingState 5) ∧
    stopRemembering initialState
      = .ok (initialState.recordedChunks,
          { initialState with isRemembering := false, recordedChunks := [] }) :=
  ⟨((recorder_misuse_silently_succeeds activeRememberingState 5).1 rfl).1,
   (recorder_misuse_silently_succeeds initialState 0).2 rfl⟩

/-- Claim C8 counterexample: with a never-started, empty buffer,
`triggerRecording` does not fail with `EmptyBuffer` — it resolves with an
empty artifact. -/
theorem trigger_empty_no_failure :
    initialState.isBuffering = false ∧
    initialState.buffer = [] ∧
    (triggerRecording initialState 1000).isOk = true ∧
    ¬ triggerRecording initialState 1000 = .error RecorderError.EmptyBuffer ∧
    (triggerRecording initialState 1000).toOption.map Prod.fst = some [] := by
  refine ⟨rfl, rfl, rfl, fun h => Except.noConfusion h, rfl⟩

/-- Claim C8 amended: `triggerRecording` never fails: for every state it
resolves with the concatenation, in buffer order, of the chunks with
timestamps in `[now - bufferSize*1000, now]`, and marks the state
triggered; when the session was never started or no chunks exist, the
artifact is empty rather than an `EmptyBuffer` error. -/
theorem triggerRecording_never_fails (s : BufferState) (now : Int) :
    (∃ s', triggerRecording s now
        = .ok ((s.buffer.filter (fun c =>
              decide (now - s.bufferSize * 1000 ≤ c.timestamp)
                && decide (c.timestamp ≤ now))).map (·.blob), s') ∧
      s'.isTriggered = true ∧ s'.triggerTime = now) ∧
    (s.buffer = [] →
      (triggerRecording s now).toOption.map Prod.fst = some []) := by
  refine ⟨⟨_, rfl, rfl, rfl⟩, fun h => ?_⟩
  simp only [triggerRecording, h, List.filter_nil, List.map_nil]
  rfl

theorem triggerRecording_never_fails_witness :
    (triggerRecording initialState 2000).toOption.map Prod.fst = some [] :=
  (triggerRecording_never_fails initialState 2000).2 rfl

/-- Claim C9: every capture-acquisition failure makes `startBuffering` fall
back to demo mode with buffering running, and after one demo-mode tick a
`triggerRecording` call at that tick's instant resolves with the synthetic
chunk rather than an empty artifact or an error. -/
theorem capture_failure_falls_back (e : CaptureError) (s : BufferState) (now t : Int)
    (hbuf : s.buffer = []) (hW : 0 < s.bufferSize) :
    (startBuffering (.error e) s now).1 = CaptureMode.demo ∧
    (startBuffering (.error e) s now).2.isBuffering = true ∧
    (∃ s', triggerRecording (demoTick (startBuffering (.error e) s now).2 t) t
        = .ok ([Blob.synth t], s')) := by
  refine ⟨rfl, rfl, ?_⟩
  have h1 : t - s.bufferSize * 1000 < t := by omega
  have h2 : t - s.bufferSize * 1000 ≤ t := by omega
  have hbuffer : (demoTick (startBuffering (.error e) s now).2 t).buffer
      = [⟨.synth t, t⟩] := by
    simp only [demoTick, ingest, startBuffering]
    simp [hbuf, h1]
  have hsize : (demoTick (startBuffering (.error e) s now).2 t).bufferSize
      = s.bufferSize := rfl
  refine ⟨{ demoTick (startBuffering (.error e) s now).2 t with
      isTriggered := true, triggerTime := t }, ?_⟩
  simp only [triggerRecording, hbuffer, hsize]
  have h3 : t ≤ t + s.bufferSize * 1000 := by omega
  simp [h2, h3]

theorem capture_failure_falls_back_witness :
    initialState.buffer = [] ∧
    (0 : Int) < initialState.bufferSize ∧
    (startBuffering (.error CaptureError.NotAllowedError) initialState 0).1
      = CaptureMode.demo ∧
    (∃ s', triggerRecording
        (demoTick (startBuffering (.error CaptureError.NotAllowedError)
          initialState 0).2 500) 500
        = .ok ([Blob.synth 500], s')) :=
  ⟨rfl, by decide,
   (capture_failure_falls_back .NotAllowedError initialState 0 500 rfl (by decide)).1,
   (capture_failure_falls_back .NotAllowedError initialState 0 500 rfl (by decide)).2.2⟩

end DYHT
